import Mathlib

/-
  Verification of the newsletter-hash/scheduler scheduling engine against its
  natural-language specification.

  The repository's checked-in sources are the React/TypeScript frontends
  (src/src/... and src/frontend/src/...); the backend scheduling engine
  (SlotCalendar, ScheduleStore, PublishDispatcher, AutoPublishWorker) is not
  present in the source tree, so those components are modelled from the spec
  (each such definition carries a doc comment starting `Modelled from the
  spec:`).  Frontend definitions are translated directly from the TypeScript
  files cited next to them.
-/

namespace Scheduler

/-- `ScheduleStatus` from src/src/shared/types/index.ts line 11:
`'scheduled' | 'publishing' | 'published' | 'partial' | 'failed'`.
The `'partial'` member of the union is named `partialSuccess` here because
`partial` is reserved in Lean; `scheduleStatusString` maps it back to the
source string. -/
inductive ScheduleStatus where
  | scheduled
  | publishing
  | published
  | partialSuccess
  | failed
deriving DecidableEq, Repr, Fintype

/-- The TypeScript string literal of each `ScheduleStatus` member. -/
def scheduleStatusString : ScheduleStatus → String
  | .scheduled => "scheduled"
  | .publishing => "publishing"
  | .published => "published"
  | .partialSuccess => "partial"
  | .failed => "failed"

/-- The status union of `ScheduledPost` in the legacy frontend layer,
src/frontend/src/api/client.ts lines 102-113:
`'scheduled' | 'published' | 'failed'`. -/
inductive LegacyScheduleStatus where
  | scheduled
  | published
  | failed
deriving DecidableEq, Repr, Fintype

/-- The TypeScript string literal of each `LegacyScheduleStatus` member. -/
def legacyScheduleStatusString : LegacyScheduleStatus → String
  | .scheduled => "scheduled"
  | .published => "published"
  | .failed => "failed"

/-- `Variant` from src/src/shared/types/index.ts: `'light' | 'dark'`. -/
inductive Variant where
  | light
  | dark
deriving DecidableEq, Repr, Fintype

/-- The two target platforms (spec section 3, `platforms`). -/
inductive Platform where
  | instagram
  | facebook
deriving DecidableEq, Repr, Fintype

/-! ## SlotCalendar -/

/-- Modelled from the spec: "Each variant defines a fixed ordered list of daily
time-of-day slots (e.g., light: 00:00, 08:00, 16:00 UTC; dark: 04:00, 12:00,
20:00 UTC)".  The backend SlotCalendar is not in the source tree; the slot
times are corroborated by the help text in
src/frontend/src/pages/Generator.tsx line 206.  Slot offsets are seconds from
UTC midnight. -/
def template : Variant → List Nat
  | .light => [0, 28800, 57600]
  | .dark => [14400, 43200, 72000]

/-- Help text displayed by the generator form,
src/frontend/src/pages/Generator.tsx line 206. -/
def slotHelpText : String :=
  "Light slots: 12AM, 8AM, 4PM | Dark slots: 4AM, 12PM, 8PM"

/-- The seconds-from-midnight offset of daily slot `i` (0, 1 or 2) of a
variant; a case-split rendering of `template`. -/
def slotOffset : Variant → Nat → Nat
  | .light, 0 => 0
  | .light, 1 => 28800
  | .light, _ => 57600
  | .dark, 0 => 14400
  | .dark, 1 => 43200
  | .dark, _ => 72000

/-- The absolute UTC time (seconds since epoch) of the `n`-th slot of a
variant, counting three slots per day from the epoch:
slot `n` is on day `n / 3` at offset `slotOffset v (n % 3)`. -/
def slotAt (v : Variant) (n : Nat) : Nat :=
  (n / 3) * 86400 + slotOffset v (n % 3)

/-- One already-booked schedule entry as the SlotCalendar sees it: a
brand+variant key and its booked absolute time (spec section 4.1). -/
structure Booking where
  brand : String
  variant : Variant
  time : Nat
deriving DecidableEq, Repr

/-- The booked times among `entries` belonging to one brand+variant
(spec section 4.1: "Occupied" means an existing entry whose scheduledTime
equals that slot exactly). -/
def bookedTimes (entries : List Booking) (b : String) (v : Variant) : List Nat :=
  (entries.filter (fun e => e.brand == b && e.variant == v)).map (fun e => e.time)

/-- Modelled from the spec: the SlotCalendar walk "day-by-day through the slot
list in chronological order; the first slot strictly after the bound, and not
already occupied ... is returned", rendered as a fuel-bounded walk over slot
indices (the caller supplies enough fuel; see `next`). -/
def nextFromFuel (v : Variant) (booked : List Nat) : Nat → Nat → Option Nat
  | 0, _ => none
  | fuel + 1, n =>
    if slotAt v n ∈ booked then nextFromFuel v booked fuel (n + 1)
    else some (slotAt v n)

/-- The index of the first slot of variant `v` strictly after `bound`: the
walk starts at the first slot of `bound`'s own day and advances at most three
slots. -/
def firstIdxAfter (v : Variant) (bound : Nat) : Nat :=
  if bound < slotAt v (3 * (bound / 86400)) then 3 * (bound / 86400)
  else if bound < slotAt v (3 * (bound / 86400) + 1) then 3 * (bound / 86400) + 1
  else if bound < slotAt v (3 * (bound / 86400) + 2) then 3 * (bound / 86400) + 2
  else 3 * (bound / 86400) + 3

/-- Modelled from the spec: `SlotCalendar.next()` — given the existing
entries, a brand, a variant and a caller-supplied earliest bound, return the
first slot strictly after the bound that no entry of the same brand+variant
occupies.  `booked.length + 1` fuel always suffices because every blocked
step consumes a distinct booked time (proved in `nextFromFuel_isSome_of_lt`). -/
def next (entries : List Booking) (b : String) (v : Variant) (bound : Nat) :
    Option Nat :=
  nextFromFuel v (bookedTimes entries b v) ((bookedTimes entries b v).length + 1)
    (firstIdxAfter v bound)

/-- Modelled from the spec: the SlotCalendar "purely queries existing entries,
never mutates" — its state is just the entry snapshot. -/
structure CalState where
  entries : List Booking
deriving Repr

/-- Modelled from the spec: `next()` as a state-passing query, returning the
computed slot and the (untouched) store snapshot. -/
def nextQuery (b : String) (v : Variant) (bound : Nat) (s : CalState) :
    Option Nat × CalState :=
  (next s.entries b v bound, s)

/-! ## PublishDispatcher -/

/-- Per-platform publish result (spec section 3, `publishResults`:
`{success, postId?, error?}`). -/
structure PubResult where
  success : Bool
  post_id : Option String := none
  error : Option String := none
deriving DecidableEq, Repr

/-- Modelled from the spec: one platform adapter attempt — an opaque call
returning a platform post id on success or an error string on failure
(spec section 1 and 4.4), recorded as a `PubResult`. -/
def attempt (adapter : Platform → Except String String) (p : Platform) :
    PubResult :=
  match adapter p with
  | .ok postId => { success := true, post_id := some postId }
  | .error e => { success := false, error := some e }

/-- Modelled from the spec: the result the dispatcher records for one
requested platform — "For each requested platform not already marked
`success` in `publishResults`: invoke the platform adapter"; an already
successful prior result is kept as is. -/
def resultFor (adapter : Platform → Except String String)
    (prior : Platform → Option PubResult) (p : Platform) : PubResult :=
  match prior p with
  | some r => if r.success then r else attempt adapter p
  | none => attempt adapter p

/-- Modelled from the spec: the accumulated `publishResults` after one
dispatch over `platforms`; platforms outside the requested set keep their
prior record (nothing is dropped). -/
def dispatchResults (adapter : Platform → Except String String)
    (prior : Platform → Option PubResult) (platforms : List Platform) :
    Platform → Option PubResult :=
  fun p => if platforms.contains p then some (resultFor adapter prior p)
           else prior p

/-- Modelled from the spec: the aggregate status — "if all requested platforms
succeed → `published`; if some succeed and some fail → `partial`; if all
fail → `failed`". -/
def aggregate (rs : List PubResult) : ScheduleStatus :=
  if rs.all (fun r => r.success) then .published
  else if rs.any (fun r => r.success) then .partialSuccess
  else .failed

/-- Modelled from the spec: the aggregate status a dispatch stores, computed
over the per-platform results of the requested set. -/
def dispatchStatus (adapter : Platform → Except String String)
    (prior : Platform → Option PubResult) (platforms : List Platform) :
    ScheduleStatus :=
  aggregate (platforms.map (resultFor adapter prior))

/-- The empty prior `publishResults` of a freshly created entry. -/
def noPrior : Platform → Option PubResult := fun _ => none

/-! ## ScheduleStore entries and status transitions -/

/-- Store-level error kinds (spec section 7: `StoreConflict`, `NotFound`). -/
inductive StoreError where
  | conflict
  | notFound
deriving DecidableEq, Repr

/-- A schedule entry as the store and worker see it (the fields the claims
touch; spec section 3). -/
structure SEntry where
  status : ScheduleStatus
  scheduledTime : Nat
  platforms : List Platform
  results : Platform → Option PubResult

/-- Modelled from the spec: the worker marks a due entry `publishing` "via the
store's compare-and-set"; the CAS precondition is the stored status being
`scheduled`, and its failure is a `StoreConflict` (spec sections 4.5 and 7). -/
def markPublishing (e : SEntry) : Except StoreError SEntry :=
  if e.status = .scheduled then .ok { e with status := .publishing }
  else .error .conflict

/-- Modelled from the spec: the user-triggered retry path — "`failed`/`partial`
may transition back to `publishing` via retry" — again under a status
compare-and-set. -/
def retryMark (e : SEntry) : Except StoreError SEntry :=
  if e.status = .failed ∨ e.status = .partialSuccess then
    .ok { e with status := .publishing }
  else .error .conflict

/-- Modelled from the spec: the dispatcher finishing one publish attempt on an
entry it had marked `publishing`: it stores the accumulated results and the
aggregate status (spec section 4.4). -/
def finishDispatch (adapter : Platform → Except String String) (e : SEntry) :
    Except StoreError SEntry :=
  if e.status = .publishing then
    .ok { e with
          status := dispatchStatus adapter e.results e.platforms,
          results := dispatchResults adapter e.results e.platforms }
  else .error .conflict

/-- A status pair is a system transition when some store operation (worker
CAS, retry CAS, or dispatch completion on a nonempty platform set) maps an
entry with the first status to one with the second. -/
def StatusStep (a b : ScheduleStatus) : Prop :=
  (∃ e e', markPublishing e = .ok e' ∧ e.status = a ∧ e'.status = b) ∨
  (∃ e e', retryMark e = .ok e' ∧ e.status = a ∧ e'.status = b) ∨
  (∃ adapter e e', e.platforms ≠ [] ∧ finishDispatch adapter e = .ok e' ∧
    e.status = a ∧ e'.status = b)

/-! ## AutoPublishWorker and store-level operations -/

/-- Modelled from the spec: what one worker tick does to one stored entry —
if it is due (`status = scheduled` and `scheduledTime <= now`), CAS it to
`publishing` and run the dispatcher; otherwise leave it alone.  The tick only
ever rewrites the entry in place, it never removes it. -/
def workerTickEntry (now : Nat) (adapter : Platform → Except String String)
    (e : SEntry) : SEntry :=
  if e.status = .scheduled ∧ e.scheduledTime ≤ now then
    match markPublishing e with
    | .ok e1 =>
      match finishDispatch adapter e1 with
      | .ok e2 => e2
      | .error _ => e1
    | .error _ => e
  else e

/-- Modelled from the spec: one AutoPublishWorker tick over the whole store
(entries keyed by id); per-entry processing, no entry created or deleted. -/
def workerTick (now : Nat) (adapter : Platform → Except String String)
    (store : List (String × SEntry)) : List (String × SEntry) :=
  store.map (fun p => (p.1, workerTickEntry now adapter p.2))

/-- Modelled from the spec: the explicit user unschedule action
(`deleteScheduled` in src/src/features/scheduling/api/scheduling-api.ts lines
96-97 posts DELETE /reels/scheduled/:id): remove the entry with the given id,
whatever its status; `NotFound` when no entry has that id. -/
def deleteScheduledOp (store : List (String × SEntry)) (id : String) :
    Except StoreError (List (String × SEntry)) :=
  if store.any (fun p => p.1 == id) then
    .ok (store.filter (fun p => p.1 != id))
  else .error .notFound

/-- The DELETE endpoint path built by `schedulingApi.deleteScheduled`,
src/src/features/scheduling/api/scheduling-api.ts lines 96-97. -/
def deleteEndpoint (id : String) : String :=
  "/reels/scheduled/" ++ id

/-! ## Frontend: retry UI and the getScheduled transform -/

/-- The condition under which the scheduled-page post modal renders its Retry
button, src/src/pages/Scheduled.tsx line 458:
`selectedPost.status === 'failed' || selectedPost.status === 'publishing'`. -/
def retryOffered (s : ScheduleStatus) : Bool :=
  s == .failed || s == .publishing

/-- The retry endpoint path built by `schedulingApi.retryFailed`,
src/src/features/scheduling/api/scheduling-api.ts lines 99-100. -/
def retryEndpoint (id : String) : String :=
  "/reels/scheduled/" ++ id ++ "/retry"

/-- The raw per-platform publish result inside a backend schedule record's
metadata, src/src/features/scheduling/api/scheduling-api.ts lines 52-58. -/
structure RawPublishResult where
  success : Bool
  post_id : Option String := none
  account_id : Option String := none
  brand_used : Option String := none
  error : Option String := none
deriving DecidableEq, Repr

/-- The optional `metadata` object of a backend schedule record,
src/src/features/scheduling/api/scheduling-api.ts lines 46-59. -/
structure SchedMetadata where
  platforms : Option (List String) := none
  brand : Option String := none
  video_path : Option String := none
  thumbnail_path : Option String := none
  post_ids : List (String × String) := []
  publish_results : List (String × RawPublishResult) := []
deriving DecidableEq, Repr

/-- One element of `ScheduledResponse.schedules`,
src/src/features/scheduling/api/scheduling-api.ts lines 34-60. -/
structure ScheduleRecord where
  schedule_id : String
  reel_id : String
  scheduled_time : String
  status : String
  platforms : List String
  brand : String
  variant : String
  caption : Option String := none
  created_at : Option String := none
  published_at : Option String := none
  publish_error : Option String := none
  metadata : Option SchedMetadata := none
deriving DecidableEq, Repr

/-- The `ScheduledPost` shape of src/src/shared/types/index.ts lines 51-76
(the `status` field kept as the raw backend string, matching the unchecked
`as` cast in the transform). -/
structure FrontScheduledPost where
  id : String
  brand : String
  job_id : String
  reel_id : String
  title : String
  scheduled_time : String
  thumbnail_path : Option String := none
  video_path : Option String := none
  caption : Option String := none
  status : String
  error : Option String := none
  published_at : Option String := none
  metadata : Option SchedMetadata := none
deriving DecidableEq, Repr

/-- JavaScript `a || b` on an optional string: the empty string is falsy, so
a missing or empty `a` yields `b`. -/
def jsOr (a : Option String) (b : String) : String :=
  match a with
  | some s => if s = "" then b else s
  | none => b

/-- The per-record transform inside `schedulingApi.getScheduled`,
src/src/features/scheduling/api/scheduling-api.ts lines 79-93. -/
def toScheduledPost (s : ScheduleRecord) : FrontScheduledPost :=
  { id := s.schedule_id
    brand := jsOr (s.metadata.bind (fun m => m.brand)) s.brand
    job_id := s.reel_id
    reel_id := s.reel_id
    title := jsOr s.caption "Scheduled Post"
    scheduled_time := s.scheduled_time
    caption := s.caption
    status := s.status
    error := s.publish_error
    published_at := s.published_at
    thumbnail_path := s.metadata.bind (fun m => m.thumbnail_path)
    video_path := s.metadata.bind (fun m => m.video_path)
    metadata := s.metadata }

/-- `schedulingApi.getScheduled`: map the transform over the response's
schedule list, src/src/features/scheduling/api/scheduling-api.ts line 79. -/
def getScheduled (schedules : List ScheduleRecord) : List FrontScheduledPost :=
  schedules.map toScheduledPost

/-! ## SlotCalendar lemmas -/

/-- Consecutive slot indices give strictly increasing absolute times. -/
theorem slotAt_lt_succ (v : Variant) (n : Nat) : slotAt v n < slotAt v (n + 1) := by
  have h : n % 3 = 0 ∨ n % 3 = 1 ∨ n % 3 = 2 := by omega
  rcases h with h | h | h
  · have h1 : (n + 1) % 3 = 1 := by omega
    have h2 : (n + 1) / 3 = n / 3 := by omega
    cases v <;> simp [slotAt, slotOffset, h, h1, h2]
  · have h1 : (n + 1) % 3 = 2 := by omega
    have h2 : (n + 1) / 3 = n / 3 := by omega
    cases v <;> simp [slotAt, slotOffset, h, h1, h2]
  · have h1 : (n + 1) % 3 = 0 := by omega
    have h2 : (n + 1) / 3 = n / 3 + 1 := by omega
    cases v <;> simp [slotAt, slotOffset, h, h1, h2] <;> omega

/-- The walk starts strictly after the bound. -/
theorem lt_slotAt_firstIdxAfter (v : Variant) (bound : Nat) :
    bound < slotAt v (firstIdxAfter v bound) := by
  have hlast : bound < slotAt v (3 * (bound / 86400) + 3) := by
    have h2 : (3 * (bound / 86400) + 3) / 3 = bound / 86400 + 1 := by omega
    have h3 : (3 * (bound / 86400) + 3) % 3 = 0 := by omega
    cases v <;> simp [slotAt, h2, h3, slotOffset] <;> omega
  unfold firstIdxAfter
  split
  next h => exact h
  next =>
    split
    next h => exact h
    next =>
      split
      next h => exact h
      next => exact hlast

/-- Whatever the walk returns is free and no earlier than its start slot. -/
theorem nextFromFuel_sound (v : Variant) (booked : List Nat) :
    ∀ fuel n t, nextFromFuel v booked fuel n = some t →
      t ∉ booked ∧ slotAt v n ≤ t := by
  intro fuel
  induction fuel with
  | zero => intro n t h; simp [nextFromFuel] at h
  | succ fuel ih =>
    intro n t h
    simp only [nextFromFuel] at h
    split at h
    · obtain ⟨h1, h2⟩ := ih (n + 1) t h
      exact ⟨h1, le_of_lt (lt_of_lt_of_le (slotAt_lt_succ v n) h2)⟩
    · next hmem =>
      cases h
      exact ⟨hmem, le_refl _⟩

/-- Each blocked step of the walk consumes a distinct booked time at or above
the current slot, so fuel exceeding that count guarantees success. -/
theorem nextFromFuel_isSome_of_lt (v : Variant) (booked : List Nat) :
    ∀ fuel n,
      (booked.toFinset.filter (fun x => slotAt v n ≤ x)).card < fuel →
      (nextFromFuel v booked fuel n).isSome := by
  intro fuel
  induction fuel with
  | zero => intro n h; omega
  | succ fuel ih =>
    intro n h
    simp only [nextFromFuel]
    split
    next hmem =>
      apply ih
      have hlt : (booked.toFinset.filter (fun x => slotAt v (n + 1) ≤ x)).card <
          (booked.toFinset.filter (fun x => slotAt v n ≤ x)).card := by
        apply Finset.card_lt_card
        rw [Finset.ssubset_def]
        constructor
        · intro x hx
          simp only [Finset.mem_filter] at hx ⊢
          exact ⟨hx.1, le_trans (le_of_lt (slotAt_lt_succ v n)) hx.2⟩
        · intro hsub
          have hmem' : slotAt v n ∈
              booked.toFinset.filter (fun x => slotAt v n ≤ x) := by
            simp [List.mem_toFinset, hmem]
          have hmem2 := hsub hmem'
          simp only [Finset.mem_filter] at hmem2
          have := slotAt_lt_succ v n
          omega
      omega
    next => simp

/-- `next` always finds a slot: the fuel `booked.length + 1` dominates the
number of distinct booked times. -/
theorem next_isSome (entries : List Booking) (b : String) (v : Variant)
    (bound : Nat) : (next entries b v bound).isSome := by
  apply nextFromFuel_isSome_of_lt
  have h1 : ((bookedTimes entries b v).toFinset.filter
      (fun x => slotAt v (firstIdxAfter v bound) ≤ x)).card ≤
      (bookedTimes entries b v).toFinset.card := Finset.card_filter_le _ _
  have h2 := (bookedTimes entries b v).toFinset_card_le
  omega

/-! ## Claim theorems -/

/-- C1: for every brand, variant, caller-supplied earliest bound and set of
already-booked entries, `SlotCalendar.next()` returns a timestamp strictly
after the bound that equals no booked slot of that brand+variant; with brand
gymcollege, variant light, no bookings and bound 2026-01-01T00:00:00Z
(epoch 1767225600) it returns 2026-01-01T08:00:00Z (epoch 1767254400). -/
theorem next_after_bound_and_unbooked :
    (∀ (brand : String) (v : Variant) (entries : List Booking) (bound : Nat),
      ∃ t, next entries brand v bound = some t ∧ bound < t ∧
        t ∉ bookedTimes entries brand v) ∧
    next [] "gymcollege" Variant.light 1767225600 = some 1767254400 := by
  constructor
  · intro brand v entries bound
    obtain ⟨t, ht⟩ := Option.isSome_iff_exists.mp (next_isSome entries brand v bound)
    have hsound := nextFromFuel_sound v (bookedTimes entries brand v)
      ((bookedTimes entries brand v).length + 1) (firstIdxAfter v bound) t ht
    refine ⟨t, ht, ?_, hsound.1⟩
    exact lt_of_lt_of_le (lt_slotAt_firstIdxAfter v bound) hsound.2
  · decide

/-- C7: the slot allocator is a deterministic, mutation-free query — run
against the same snapshot twice (no bookings added in between) it leaves the
snapshot untouched and returns the same timestamp both times. -/
theorem nextQuery_deterministic_and_pure :
    ∀ (b : String) (v : Variant) (bound : Nat) (s : CalState),
      (nextQuery b v bound s).2 = s ∧
      (nextQuery b v bound (nextQuery b v bound s).2).1 =
        (nextQuery b v bound s).1 := by
  intro b v bound s
  exact ⟨rfl, rfl⟩

/-- C4: each variant's daily template is a fixed ordered list of exactly three
slots spaced 8 hours (28800 s) apart — light at 00:00, 08:00, 16:00 UTC and
dark at 04:00, 12:00, 20:00 UTC — and the two templates share no slot time. -/
theorem slot_templates_shape :
    template Variant.light = [0, 28800, 57600] ∧
    template Variant.dark = [14400, 43200, 72000] ∧
    (∀ v : Variant, (template v).length = 3) ∧
    (∀ v : Variant, (template v).Chain' (fun a b => b = a + 28800)) ∧
    (∀ t ∈ template Variant.light, t ∉ template Variant.dark) := by
  refine ⟨rfl, rfl, by decide, ?_, by decide⟩
  intro v
  cases v <;> simp [template, List.chain'_cons]

/-- C5: a dispatch over the requested platform set records every platform
attempt's outcome in the entry's results, and the aggregate status is
`published` exactly when every attempt succeeds, `partial` exactly when some
succeed and some fail, and `failed` exactly when all fail. -/
theorem dispatch_aggregate_correct :
    ∀ (adapter : Platform → Except String String) (platforms : List Platform),
      platforms ≠ [] →
      (∀ p ∈ platforms,
        dispatchResults adapter noPrior platforms p = some (attempt adapter p)) ∧
      (dispatchStatus adapter noPrior platforms = .published ↔
        ∀ p ∈ platforms, (attempt adapter p).success = true) ∧
      (dispatchStatus adapter noPrior platforms = .partialSuccess ↔
        ((∃ p ∈ platforms, (attempt adapter p).success = true) ∧
         (∃ p ∈ platforms, (attempt adapter p).success = false))) ∧
      (dispatchStatus adapter noPrior platforms = .failed ↔
        ∀ p ∈ platforms, (attempt adapter p).success = false) := by
  intro adapter platforms hne
  have hstat : dispatchStatus adapter noPrior platforms =
      aggregate (platforms.map (attempt adapter)) := rfl
  have hAll : ((platforms.map (attempt adapter)).all (fun r => r.success) = true) ↔
      (∀ p ∈ platforms, (attempt adapter p).success = true) := by
    simp [List.all_map, List.all_eq_true, Function.comp]
  have hAny : ((platforms.map (attempt adapter)).any (fun r => r.success) = true) ↔
      (∃ p ∈ platforms, (attempt adapter p).success = true) := by
    simp [List.any_map, List.any_eq_true, Function.comp]
  refine ⟨?_, ?_⟩
  · intro p hp
    simp [dispatchResults, hp]
    rfl
  by_cases hall : ∀ p ∈ platforms, (attempt adapter p).success = true
  · have hS : dispatchStatus adapter noPrior platforms = .published := by
      rw [hstat]; unfold aggregate; rw [if_pos (hAll.mpr hall)]
    refine ⟨iff_of_true hS hall, iff_of_false (by rw [hS]; decide) ?_,
      iff_of_false (by rw [hS]; decide) ?_⟩
    · rintro ⟨-, ⟨q, hq, hqf⟩⟩
      rw [hall q hq] at hqf
      cases hqf
    · intro hf
      obtain ⟨p, hp⟩ := List.exists_mem_of_ne_nil platforms hne
      have h1 := hall p hp
      have h2 := hf p hp
      rw [h1] at h2
      cases h2
  · have hfail : ∃ p ∈ platforms, (attempt adapter p).success = false := by
      push_neg at hall
      obtain ⟨p, hp, hps⟩ := hall
      exact ⟨p, hp, by simpa using hps⟩
    by_cases hany : ∃ p ∈ platforms, (attempt adapter p).success = true
    · have hS : dispatchStatus adapter noPrior platforms = .partialSuccess := by
        rw [hstat]; unfold aggregate
        rw [if_neg (fun h => hall (hAll.mp h)), if_pos (hAny.mpr hany)]
      refine ⟨iff_of_false (by rw [hS]; decide) hall,
        iff_of_true hS ⟨hany, hfail⟩,
        iff_of_false (by rw [hS]; decide) ?_⟩
      intro hf
      obtain ⟨p, hp, hps⟩ := hany
      rw [hf p hp] at hps
      cases hps
    · have hS : dispatchStatus adapter noPrior platforms = .failed := by
        rw [hstat]; unfold aggregate
        rw [if_neg (fun h => hall (hAll.mp h)), if_neg (fun h => hany (hAny.mp h))]
      have hallf : ∀ p ∈ platforms, (attempt adapter p).success = false := by
        intro p hp
        rcases hb : (attempt adapter p).success with _ | _
        · rfl
        · exact absurd ⟨p, hp, hb⟩ hany
      refine ⟨iff_of_false (by rw [hS]; decide) hall,
        iff_of_false (by rw [hS]; decide) ?_, iff_of_true hS hallf⟩
      rintro ⟨⟨p, hp, hps⟩, -⟩
      exact hany ⟨p, hp, hps⟩

/-- C5 witness: the spec's partial-failure scenario — instagram succeeds and
facebook fails — instantiates the dispatch theorem. -/
theorem dispatch_aggregate_correct_witness :
    ([Platform.instagram, Platform.facebook] ≠ ([] : List Platform)) ∧
    ((∀ p ∈ [Platform.instagram, Platform.facebook],
        dispatchResults
          (fun p => match p with
            | Platform.instagram => Except.ok "ig-post-1"
            | Platform.facebook => Except.error "stubbed failure")
          noPrior [Platform.instagram, Platform.facebook] p =
          some (attempt
            (fun p => match p with
              | Platform.instagram => Except.ok "ig-post-1"
              | Platform.facebook => Except.error "stubbed failure") p)) ∧
      (dispatchStatus
          (fun p => match p with
            | Platform.instagram => Except.ok "ig-post-1"
            | Platform.facebook => Except.error "stubbed failure")
          noPrior [Platform.instagram, Platform.facebook] = .published ↔
        ∀ p ∈ [Platform.instagram, Platform.facebook],
          (attempt
            (fun p => match p with
              | Platform.instagram => Except.ok "ig-post-1"
              | Platform.facebook => Except.error "stubbed failure") p).success = true) ∧
      (dispatchStatus
          (fun p => match p with
            | Platform.instagram => Except.ok "ig-post-1"
            | Platform.facebook => Except.error "stubbed failure")
          noPrior [Platform.instagram, Platform.facebook] = .partialSuccess ↔
        ((∃ p ∈ [Platform.instagram, Platform.facebook],
            (attempt
              (fun p => match p with
                | Platform.instagram => Except.ok "ig-post-1"
                | Platform.facebook => Except.error "stubbed failure") p).success = true) ∧
         (∃ p ∈ [Platform.instagram, Platform.facebook],
            (attempt
              (fun p => match p with
                | Platform.instagram => Except.ok "ig-post-1"
                | Platform.facebook => Except.error "stubbed failure") p).success = false))) ∧
      (dispatchStatus
          (fun p => match p with
            | Platform.instagram => Except.ok "ig-post-1"
            | Platform.facebook => Except.error "stubbed failure")
          noPrior [Platform.instagram, Platform.facebook] = .failed ↔
        ∀ p ∈ [Platform.instagram, Platform.facebook],
          (attempt
            (fun p => match p with
              | Platform.instagram => Except.ok "ig-post-1"
              | Platform.facebook => Except.error "stubbed failure") p).success = false)) :=
  ⟨by decide,
    dispatch_aggregate_correct
      (fun p => match p with
        | Platform.instagram => Except.ok "ig-post-1"
        | Platform.facebook => Except.error "stubbed failure")
      [Platform.instagram, Platform.facebook] (by decide)⟩

/-- C6: a successful per-platform publish result is never overwritten — any
later dispatch (in particular a retry) keeps a prior successful result
unchanged, whatever the adapter now returns. -/
theorem publish_success_never_overwritten :
    ∀ (adapter : Platform → Except String String)
      (prior : Platform → Option PubResult) (platforms : List Platform)
      (p : Platform) (r : PubResult),
      prior p = some r → r.success = true →
      dispatchResults adapter prior platforms p = some r := by
  intro adapter prior platforms p r hprior hsucc
  unfold dispatchResults
  by_cases hc : platforms.contains p = true
  · rw [if_pos hc]
    unfold resultFor
    rw [hprior]
    simp [hsucc]
  · rw [if_neg hc]
    exact hprior

/-- C6 witness: a concrete successful instagram result survives a retry whose
adapter would now fail. -/
theorem publish_success_never_overwritten_witness :
    (fun q => if q = Platform.instagram
        then some { success := true, post_id := some "ig-post-1" : PubResult }
        else none) Platform.instagram =
      some { success := true, post_id := some "ig-post-1" : PubResult } ∧
    ({ success := true, post_id := some "ig-post-1" : PubResult }).success = true ∧
    dispatchResults (fun _ => Except.error "outage")
      (fun q => if q = Platform.instagram
        then some { success := true, post_id := some "ig-post-1" : PubResult }
        else none)
      [Platform.instagram, Platform.facebook] Platform.instagram =
      some { success := true, post_id := some "ig-post-1" : PubResult } :=
  ⟨rfl, rfl,
    publish_success_never_overwritten (fun _ => Except.error "outage")
      (fun q => if q = Platform.instagram
        then some { success := true, post_id := some "ig-post-1" : PubResult }
        else none)
      [Platform.instagram, Platform.facebook] Platform.instagram
      { success := true, post_id := some "ig-post-1" } rfl rfl⟩

/-- C9: on an entry in status `scheduled`, of two racing compare-and-set
transitions to `publishing` (two overlapping worker ticks, or a tick racing a
manual retry, linearized by the store) the first succeeds and the second —
running against the store state the first produced — observes `StoreConflict`,
so exactly one dispatch proceeds. -/
theorem cas_publish_race :
    ∀ e : SEntry, e.status = .scheduled →
      ∃ e', markPublishing e = .ok e' ∧ e'.status = .publishing ∧
        markPublishing e' = .error .conflict := by
  intro e he
  refine ⟨{ e with status := .publishing }, ?_, rfl, ?_⟩
  · unfold markPublishing
    rw [if_pos he]
  · simp [markPublishing]

/-- C9 witness: the race resolved on a concrete scheduled entry. -/
theorem cas_publish_race_witness :
    ({ status := .scheduled, scheduledTime := 1767254400,
       platforms := [Platform.instagram, Platform.facebook],
       results := noPrior : SEntry }).status = ScheduleStatus.scheduled ∧
    ∃ e', markPublishing
        { status := .scheduled, scheduledTime := 1767254400,
          platforms := [Platform.instagram, Platform.facebook],
          results := noPrior : SEntry } = .ok e' ∧
      e'.status = .publishing ∧ markPublishing e' = .error .conflict :=
  ⟨rfl, cas_publish_race
    { status := .scheduled, scheduledTime := 1767254400,
      platforms := [Platform.instagram, Platform.facebook],
      results := noPrior } rfl⟩

/-- Every aggregate status is `published`, `partial` or `failed`. -/
theorem aggregate_mem (rs : List PubResult) :
    aggregate rs = .published ∨ aggregate rs = .partialSuccess ∨
      aggregate rs = .failed := by
  unfold aggregate
  split
  · exact Or.inl rfl
  · split
    · exact Or.inr (Or.inl rfl)
    · exact Or.inr (Or.inr rfl)

/-- C2 counterexample: the shared types layer has the status string
`publishing` (and likewise `partial`), but the legacy frontend layer's
`ScheduledPost['status']` union has no member mapping to it, so the two
frontend type layers do not admit the same five-value status set. -/
theorem legacy_status_set_differs :
    scheduleStatusString .publishing = "publishing" ∧
    (¬ ∃ s : LegacyScheduleStatus,
      legacyScheduleStatusString s = "publishing") ∧
    scheduleStatusString .partialSuccess = "partial" ∧
    (¬ ∃ s : LegacyScheduleStatus,
      legacyScheduleStatusString s = "partial") := by
  refine ⟨rfl, ?_, rfl, ?_⟩
  · rintro ⟨s, hs⟩
    cases s <;> simp [legacyScheduleStatusString] at hs
  · rintro ⟨s, hs⟩
    cases s <;> simp [legacyScheduleStatusString] at hs

/-- C2 amended: the shared types layer's status takes exactly the five values
scheduled, publishing, published, partial, failed, and the store operations
realize exactly the transitions scheduled → publishing →
{published, partial, failed} plus the retries failed → publishing and
partial → publishing; the legacy frontend client layer admits only the
three-value subset scheduled, published, failed. -/
theorem status_values_and_transitions :
    (∀ s : ScheduleStatus,
      s ∈ [ScheduleStatus.scheduled, .publishing, .published, .partialSuccess,
        .failed]) ∧
    (∀ s : LegacyScheduleStatus,
      s ∈ [LegacyScheduleStatus.scheduled, .published, .failed]) ∧
    (∀ a b : ScheduleStatus, StatusStep a b ↔
      (a, b) ∈ [(ScheduleStatus.scheduled, ScheduleStatus.publishing),
        (.publishing, .published), (.publishing, .partialSuccess),
        (.publishing, .failed), (.failed, .publishing),
        (.partialSuccess, .publishing)]) := by
  refine ⟨by decide, by decide, ?_⟩
  intro a b
  constructor
  · rintro (⟨e, e', hop, ha, hb⟩ | ⟨e, e', hop, ha, hb⟩ |
      ⟨adapter, e, e', hne, hop, ha, hb⟩)
    · unfold markPublishing at hop
      split at hop
      next hcond =>
        injection hop with hop
        rw [← hop] at hb
        simp only [] at hb
        rw [hcond] at ha
        subst ha
        subst hb
        simp
      next => cases hop
    · unfold retryMark at hop
      split at hop
      next hcond =>
        injection hop with hop
        rw [← hop] at hb
        simp only [] at hb
        subst hb
        rcases hcond with hcond | hcond <;> rw [hcond] at ha <;> subst ha <;> simp
      next => cases hop
    · unfold finishDispatch at hop
      split at hop
      next hcond =>
        injection hop with hop
        rw [← hop] at hb
        simp only [] at hb
        rw [hcond] at ha
        subst ha
        rcases aggregate_mem (e.platforms.map (resultFor adapter e.results)) with
          hagg | hagg | hagg <;>
          rw [show dispatchStatus adapter e.results e.platforms =
            aggregate (e.platforms.map (resultFor adapter e.results)) from rfl,
            hagg] at hb <;> subst hb <;> simp
      next => cases hop
  · intro h
    simp only [List.mem_cons, List.not_mem_nil, or_false, Prod.mk.injEq] at h
    rcases h with ⟨ha, hb⟩ | ⟨ha, hb⟩ | ⟨ha, hb⟩ | ⟨ha, hb⟩ | ⟨ha, hb⟩ | ⟨ha, hb⟩ <;>
      subst ha <;> subst hb
    · exact Or.inl ⟨
        { status := .scheduled, scheduledTime := 0, platforms := [],
          results := noPrior },
        { status := .publishing, scheduledTime := 0, platforms := [],
          results := noPrior }, rfl, rfl, rfl⟩
    · refine Or.inr (Or.inr ⟨fun _ => Except.ok "post-1",
        { status := .publishing, scheduledTime := 0,
          platforms := [Platform.instagram], results := noPrior },
        { status := .published, scheduledTime := 0,
          platforms := [Platform.instagram],
          results := dispatchResults (fun _ => Except.ok "post-1") noPrior
            [Platform.instagram] },
        by simp, rfl, rfl, rfl⟩)
    · refine Or.inr (Or.inr ⟨(fun p => match p with
          | Platform.instagram => Except.ok "post-1"
          | Platform.facebook => Except.error "boom"),
        { status := .publishing, scheduledTime := 0,
          platforms := [Platform.instagram, Platform.facebook],
          results := noPrior },
        { status := .partialSuccess, scheduledTime := 0,
          platforms := [Platform.instagram, Platform.facebook],
          results := dispatchResults (fun p => match p with
            | Platform.instagram => Except.ok "post-1"
            | Platform.facebook => Except.error "boom") noPrior
            [Platform.instagram, Platform.facebook] },
        by simp, rfl, rfl, rfl⟩)
    · refine Or.inr (Or.inr ⟨fun _ => Except.error "boom",
        { status := .publishing, scheduledTime := 0,
          platforms := [Platform.instagram], results := noPrior },
        { status := .failed, scheduledTime := 0,
          platforms := [Platform.instagram],
          results := dispatchResults (fun _ => Except.error "boom") noPrior
            [Platform.instagram] },
        by simp, rfl, rfl, rfl⟩)
    · exact Or.inr (Or.inl ⟨
        { status := .failed, scheduledTime := 0, platforms := [],
          results := noPrior },
        { status := .publishing, scheduledTime := 0, platforms := [],
          results := noPrior }, rfl, rfl, rfl⟩)
    · exact Or.inr (Or.inl ⟨
        { status := .partialSuccess, scheduledTime := 0, platforms := [],
          results := noPrior },
        { status := .publishing, scheduledTime := 0, platforms := [],
          results := noPrior }, rfl, rfl, rfl⟩)

/-- C3 counterexample: an entry with status `partial` satisfies the claim's
antecedent, but the scheduled page's post modal does not render the Retry
button for it (the source condition is
`status === 'failed' || status === 'publishing'`). -/
theorem retry_not_offered_for_partial :
    (ScheduleStatus.partialSuccess = ScheduleStatus.failed ∨
     ScheduleStatus.partialSuccess = ScheduleStatus.partialSuccess) ∧
    retryOffered ScheduleStatus.partialSuccess = false := by
  decide

/-- C3 amended: the Retry action is offered exactly for entries in status
`failed` or `publishing` (not `partial`), and invoking it posts to
/reels/scheduled/:id/retry. -/
theorem retry_offered_iff :
    (∀ s : ScheduleStatus,
      retryOffered s = true ↔ (s = .failed ∨ s = .publishing)) ∧
    retryEndpoint "abc123" = "/reels/scheduled/abc123/retry" :=
  ⟨by decide, rfl⟩

/-- C8: a worker tick maps the store entry-by-entry and preserves every entry
id (the worker never hard-deletes), while the explicit user unschedule
removes an entry whatever its status — for each of the five statuses, an
entry carrying it is deleted successfully — via DELETE /reels/scheduled/:id. -/
theorem worker_never_deletes_unschedule_any_status :
    (∀ (now : Nat) (adapter : Platform → Except String String)
        (store : List (String × SEntry)),
      (workerTick now adapter store).map Prod.fst = store.map Prod.fst) ∧
    (∀ (store : List (String × SEntry)) (id : String) (e : SEntry),
      (id, e) ∈ store →
      deleteScheduledOp store id = .ok (store.filter (fun p => p.1 != id))) ∧
    deleteEndpoint "abc123" = "/reels/scheduled/abc123" := by
  refine ⟨?_, ?_, rfl⟩
  · intro now adapter store
    rw [workerTick, List.map_map]
    rfl
  · intro store id e hmem
    unfold deleteScheduledOp
    rw [if_pos]
    exact List.any_eq_true.mpr ⟨(id, e), hmem, by simp⟩

/-- C10 counterexample: a backend record whose metadata carries a present but
empty `brand` field — the transform falls back to the top-level brand (the
source uses JavaScript `||`, for which the empty string is falsy), so
`brand equals metadata.brand whenever that field is present` fails. -/
theorem getScheduled_brand_empty_metadata :
    (({ schedule_id := "s1", reel_id := "r1",
        scheduled_time := "2026-01-01T08:00:00Z", status := "scheduled",
        platforms := ["instagram"], brand := "gymcollege", variant := "light",
        metadata := some { brand := some "" } : ScheduleRecord }).metadata.bind
      (fun m => m.brand) = some "") ∧
    (toScheduledPost
      { schedule_id := "s1", reel_id := "r1",
        scheduled_time := "2026-01-01T08:00:00Z", status := "scheduled",
        platforms := ["instagram"], brand := "gymcollege", variant := "light",
        metadata := some { brand := some "" } }).brand = "gymcollege" ∧
    ("gymcollege" : String) ≠ "" := by
  refine ⟨rfl, rfl, by decide⟩

/-- C10 amended: for every backend record, `getScheduled`'s transform yields
id = schedule_id; brand = metadata.brand when that field is present and
non-empty and the top-level brand otherwise; title = caption when the caption
is present and non-empty and "Scheduled Post" otherwise — hence the title is
never empty. -/
theorem getScheduled_transform_fields :
    ∀ r : ScheduleRecord,
      (toScheduledPost r).id = r.schedule_id ∧
      (∀ b, r.metadata.bind (fun m => m.brand) = some b → b ≠ "" →
        (toScheduledPost r).brand = b) ∧
      ((r.metadata.bind (fun m => m.brand) = none ∨
        r.metadata.bind (fun m => m.brand) = some "") →
        (toScheduledPost r).brand = r.brand) ∧
      (∀ c, r.caption = some c → c ≠ "" → (toScheduledPost r).title = c) ∧
      ((r.caption = none ∨ r.caption = some "") →
        (toScheduledPost r).title = "Scheduled Post") ∧
      (toScheduledPost r).title ≠ "" := by
  intro r
  refine ⟨rfl, ?_, ?_, ?_, ?_, ?_⟩
  · intro b hb hne
    simp [toScheduledPost, jsOr, hb, hne]
  · rintro (hb | hb) <;> simp [toScheduledPost, jsOr, hb]
  · intro c hc hne
    simp [toScheduledPost, jsOr, hc, hne]
  · rintro (hc | hc) <;> simp [toScheduledPost, jsOr, hc]
  · rcases hc : r.caption with _ | c
    · simp [toScheduledPost, jsOr, hc]
    · by_cases hce : c = ""
      · simp [toScheduledPost, jsOr, hc, hce]
      · simp [toScheduledPost, jsOr, hc, hce]

end Scheduler
